import Mathlib

/-!
Verification of the 2D-Convection time-stepping kernel (`src/sim.cpp`).

The simulator state is embedded shallowly: the flat `double` arrays of the
C++ code (indexed `n*nZ + k`) become total functions `ℕ → ℕ → ℚ` over the
mode index `n` and the vertical index `k`; the two-slot ping-pong tendency
buffers become functions `ℕ → ℕ → ℕ → ℚ` whose first argument is the slot.
Machine doubles are modelled as exact rationals; external `<cmath>`
constants and functions (`M_PI`, `std::log`, `std::sin`) and the missing
headers (`numerical_methods.hpp`, the Thomas solver, `constants.hpp`)
enter as parameters or as definitions modelled from the specification and
marked as such. The embedding targets the non-DDC build (`DDC` undefined).
-/

/-- Immutable configuration of a `Sim`: grid sizes, physics constants and
run-control values taken by the `Sim` constructor, plus the external
constants `M_PI` (from `<cmath>`) and `EPSILON` (from the missing
`constants.hpp`), both carried as parameters. -/
structure Params where
  nZ : ℕ
  nN : ℕ
  a : ℕ
  Pr : ℚ
  Ra : ℚ
  dt : ℚ
  totalTime : ℚ
  timeBetweenSaves : ℚ
  tmpGrad : ℚ
  pi : ℚ
  EPSILON : ℚ
  deriving DecidableEq

/-- Derived vertical spacing `dz = 1/(nZ-1)` (from `Sim::init`). -/
def dzOf (P : Params) : ℚ := 1 / ((P.nZ : ℚ) - 1)

/-- Derived constant `oodz2 = (1/dz)^2` (from `Sim::init`). -/
def oodz2Of (P : Params) : ℚ := (1 / dzOf P) ^ 2

/-- Modelled from the spec: `dfdz(F, i, dz)` from the missing
`numerical_methods.hpp` returns the centred first difference
`(F[i+1] - F[i-1]) / (2*dz)`. -/
def dfdz (F : ℕ → ℚ) (i : ℕ) (dz : ℚ) : ℚ := (F (i + 1) - F (i - 1)) / (2 * dz)

/-- Modelled from the spec: `dfdz2(F, i, dz)` from the missing
`numerical_methods.hpp` returns the centred second difference
`(F[i+1] - 2*F[i] + F[i-1]) / dz²`. -/
def dfdz2 (F : ℕ → ℚ) (i : ℕ) (dz : ℚ) : ℚ :=
  (F (i + 1) - 2 * F i + F (i - 1)) / dz ^ 2

/-- Modelled from the spec: `adamsBashforth(dNew, dOld, f, dt)` from the
missing `numerical_methods.hpp` returns `dt*((1 + f/2)*dNew - (f/2)*dOld)`. -/
def adamsBashforth (dNew dOld f dt : ℚ) : ℚ :=
  dt * ((1 + f / 2) * dNew - (f / 2) * dOld)

/-- Mutable state of a `Sim`: the spectral fields `tmp`, `omg`, `psi`
(C++ arrays of `nN*nZ` doubles, here `n ↦ k ↦ value`), the two-slot
tendency buffers `dTmpdt`, `dOmgdt` (C++ arrays of `2*nN*nZ` doubles, here
`slot ↦ n ↦ k ↦ value`), the ping-pong selector `current` and the
simulation time `t`. -/
structure SimState where
  tmp : ℕ → ℕ → ℚ
  omg : ℕ → ℕ → ℚ
  psi : ℕ → ℕ → ℚ
  dTmpdt : ℕ → ℕ → ℕ → ℚ
  dOmgdt : ℕ → ℕ → ℕ → ℚ
  current : ℕ
  t : ℚ

/-- `Sim::computeLinearDerivatives(int linearSim)` (sim.cpp lines
227-260, non-DDC build): for `n` from `linearSim` to `nN-1` and interior
`k ∈ [1, nZ-2]` it writes into the `current` tendency slot
`dTmpdt[di] = dfdz2(tmp,i,dz) - pow(n*M_PI/a,2)*tmp[i]`, adds
`-1*tmpGrad*n*M_PI/a*psi[i]` when `linearSim == 1`, and writes
`dOmgdt[di] = Pr*(dfdz2(omg,i,dz) - pow(n*M_PI/a,2)*omg[i]
+ Ra*n*M_PI/a*tmp[i])`. All other entries are untouched. -/
def computeLinearDerivatives (P : Params) (linearSim : ℕ) (s : SimState) :
    SimState :=
  { s with
    dTmpdt := fun sl n k =>
      if sl = s.current ∧ linearSim ≤ n ∧ n < P.nN ∧ 1 ≤ k ∧ k < P.nZ - 1 then
        dfdz2 (s.tmp n) k (dzOf P) - ((n : ℚ) * P.pi / (P.a : ℚ)) ^ 2 * s.tmp n k
          + (if linearSim = 1 then
              -1 * P.tmpGrad * (n : ℚ) * P.pi / (P.a : ℚ) * s.psi n k
            else 0)
      else s.dTmpdt sl n k
    dOmgdt := fun sl n k =>
      if sl = s.current ∧ linearSim ≤ n ∧ n < P.nN ∧ 1 ≤ k ∧ k < P.nZ - 1 then
        P.Pr * (dfdz2 (s.omg n) k (dzOf P)
          - ((n : ℚ) * P.pi / (P.a : ℚ)) ^ 2 * s.omg n k
          + P.Ra * (n : ℚ) * P.pi / (P.a : ℚ) * s.tmp n k)
      else s.dOmgdt sl n k }

/-- Summand of the first loop of `Sim::computeNonLinearDerivatives`
(sim.cpp lines 263-273): the contribution TO `tmp[n=0]` from mode `n`,
`-M_PI/(2*a)*n*(dfdz(psi,in,dz)*tmp[in] + dfdz(tmp,in,dz)*psi[in])`. -/
def nlTmpMeanSummand (P : Params) (s : SimState) (n k : ℕ) : ℚ :=
  -P.pi / (2 * (P.a : ℚ)) * (n : ℚ) *
    (dfdz (s.psi n) k (dzOf P) * s.tmp n k + dfdz (s.tmp n) k (dzOf P) * s.psi n k)

/-- Contribution FROM `tmp[n=0]` to mode `n` (sim.cpp lines 276-281):
`-n*M_PI/a*psi[in]*dfdz(tmp, 0*nZ+k, dz)`. -/
def nlTmpFromMean (P : Params) (s : SimState) (n k : ℕ) : ℚ :=
  -(n : ℚ) * P.pi / (P.a : ℚ) * s.psi n k * dfdz (s.tmp 0) k (dzOf P)

/-- Triad case `n = n' + n''` summand for `dTmpdt` (sim.cpp lines
284-296), with `o = n - m`:
`-M_PI/(2*a)*(-m*dfdz(psi,io,dz)*tmp[im] + o*dfdz(tmp,im,dz)*psi[io])`. -/
def nlTmpCase1 (P : Params) (s : SimState) (n m k : ℕ) : ℚ :=
  -P.pi / (2 * (P.a : ℚ)) *
    (-(m : ℚ) * dfdz (s.psi (n - m)) k (dzOf P) * s.tmp m k
      + ((n - m : ℕ) : ℚ) * dfdz (s.tmp m) k (dzOf P) * s.psi (n - m) k)

/-- Triad case `n = n' + n''` summand for `dOmgdt` (sim.cpp lines
297-301), with `o = n - m`. -/
def nlOmgCase1 (P : Params) (s : SimState) (n m k : ℕ) : ℚ :=
  -P.pi / (2 * (P.a : ℚ)) *
    (-(m : ℚ) * dfdz (s.psi (n - m)) k (dzOf P) * s.omg m k
      + ((n - m : ℕ) : ℚ) * dfdz (s.omg m) k (dzOf P) * s.psi (n - m) k)

/-- Triad case `n = n' - n''` summand for `dTmpdt` (sim.cpp lines
304-316), with `o = m - n`:
`-M_PI/(2*a)*(+m*dfdz(psi,io,dz)*tmp[im] + o*dfdz(tmp,im,dz)*psi[io])`. -/
def nlTmpCase2 (P : Params) (s : SimState) (n m k : ℕ) : ℚ :=
  -P.pi / (2 * (P.a : ℚ)) *
    ((m : ℚ) * dfdz (s.psi (m - n)) k (dzOf P) * s.tmp m k
      + ((m - n : ℕ) : ℚ) * dfdz (s.tmp m) k (dzOf P) * s.psi (m - n) k)

/-- Triad case `n = n' - n''` summand for `dOmgdt` (sim.cpp lines
317-321), with `o = m - n`. -/
def nlOmgCase2 (P : Params) (s : SimState) (n m k : ℕ) : ℚ :=
  -P.pi / (2 * (P.a : ℚ)) *
    ((m : ℚ) * dfdz (s.psi (m - n)) k (dzOf P) * s.omg m k
      + ((m - n : ℕ) : ℚ) * dfdz (s.omg m) k (dzOf P) * s.psi (m - n) k)

/-- Triad case `n = n'' - n'` summand for `dTmpdt` (sim.cpp lines
324-336), with `o = n + m`:
`-M_PI/(2*a)*(+m*dfdz(psi,io,dz)*tmp[im] + o*dfdz(tmp,im,dz)*psi[io])`. -/
def nlTmpCase3 (P : Params) (s : SimState) (n m k : ℕ) : ℚ :=
  -P.pi / (2 * (P.a : ℚ)) *
    ((m : ℚ) * dfdz (s.psi (n + m)) k (dzOf P) * s.tmp m k
      + ((n + m : ℕ) : ℚ) * dfdz (s.tmp m) k (dzOf P) * s.psi (n + m) k)

/-- Triad case `n = n'' - n'` summand for `dOmgdt` (sim.cpp lines
337-341), with `o = n + m`; note the leading `+M_PI/(2*a)` in the source,
unlike every other case:
`+M_PI/(2*a)*(+m*dfdz(psi,io,dz)*omg[im] + o*dfdz(omg,im,dz)*psi[io])`. -/
def nlOmgCase3 (P : Params) (s : SimState) (n m k : ℕ) : ℚ :=
  P.pi / (2 * (P.a : ℚ)) *
    ((m : ℚ) * dfdz (s.psi (n + m)) k (dzOf P) * s.omg m k
      + ((n + m : ℕ) : ℚ) * dfdz (s.omg m) k (dzOf P) * s.psi (n + m) k)

/-- `Sim::computeNonLinearDerivatives()` (sim.cpp lines 262-345): a first
loop accumulates into the current slot of `dTmpdt` at mode 0 the mean-mode
sink over all `n ∈ [1, nN)`; then for each `n ∈ [1, nN)` and interior `k`
the current slots of `dTmpdt[n,k]` and `dOmgdt[n,k]` accumulate the
mean-gradient term (for `dTmpdt` only) and the three triad-case sums over
`m ∈ [1, n)`, `m ∈ [n+1, nN)` and `m ∈ [1, nN-n)`. All writes are `+=`
into the current slot at interior `k`; every other entry is untouched. -/
def computeNonLinearDerivatives (P : Params) (s : SimState) : SimState :=
  { s with
    dTmpdt := fun sl n k =>
      if sl = s.current ∧ 1 ≤ k ∧ k < P.nZ - 1 then
        if n = 0 then
          s.dTmpdt sl n k + ∑ j in Finset.Ico 1 P.nN, nlTmpMeanSummand P s j k
        else if n < P.nN then
          s.dTmpdt sl n k + nlTmpFromMean P s n k
            + ∑ m in Finset.Ico 1 n, nlTmpCase1 P s n m k
            + ∑ m in Finset.Ico (n + 1) P.nN, nlTmpCase2 P s n m k
            + ∑ m in Finset.Ico 1 (P.nN - n), nlTmpCase3 P s n m k
        else s.dTmpdt sl n k
      else s.dTmpdt sl n k
    dOmgdt := fun sl n k =>
      if sl = s.current ∧ 1 ≤ k ∧ k < P.nZ - 1 ∧ 1 ≤ n ∧ n < P.nN then
        s.dOmgdt sl n k
          + ∑ m in Finset.Ico 1 n, nlOmgCase1 P s n m k
          + ∑ m in Finset.Ico (n + 1) P.nN, nlOmgCase2 P s n m k
          + ∑ m in Finset.Ico 1 (P.nN - n), nlOmgCase3 P s n m k
      else s.dOmgdt sl n k }

/-- `Sim::updateTmpAndOmg(double f)` (sim.cpp lines 198-224): for every
`n < nN` and `k < nZ`, adds the Adams-Bashforth combination of the
`current` and other tendency slots to `tmp` and `omg`. -/
def updateTmpAndOmg (P : Params) (f : ℚ) (s : SimState) : SimState :=
  { s with
    tmp := fun n k =>
      if n < P.nN ∧ k < P.nZ then
        s.tmp n k + adamsBashforth (s.dTmpdt s.current n k)
          (s.dTmpdt ((s.current + 1) % 2) n k) f P.dt
      else s.tmp n k
    omg := fun n k =>
      if n < P.nN ∧ k < P.nZ then
        s.omg n k + adamsBashforth (s.dOmgdt s.current n k)
          (s.dOmgdt ((s.current + 1) % 2) n k) f P.dt
      else s.omg n k }

/-- Modelled from the spec: diagonal of the per-mode tridiagonal operator
of the missing `ThomasAlgorithm` class, `-(2*oodz2 + (nπ/a)²)` on interior
rows, with the two Dirichlet end rows at `k = 0` and `k = nZ-1`. -/
def triDia (P : Params) (n k : ℕ) : ℚ :=
  if k = 0 ∨ k = P.nZ - 1 then 1
  else -(2 * oodz2Of P + ((n : ℚ) * P.pi / (P.a : ℚ)) ^ 2)

/-- Modelled from the spec: off-diagonal of the per-mode tridiagonal
operator, `oodz2` on interior rows and `0` on the Dirichlet end rows. -/
def triOff (P : Params) (k : ℕ) : ℚ :=
  if k = 0 ∨ k = P.nZ - 1 then 0 else oodz2Of P

/-- Modelled from the spec: right-hand side of the per-mode solve,
`ω_n(k)` on interior rows and `0` on the Dirichlet end rows. -/
def triRhs (P : Params) (g : ℕ → ℚ) (k : ℕ) : ℚ :=
  if k = 0 ∨ k = P.nZ - 1 then 0 else g k

/-- Modelled from the spec: modified super-diagonal of the Thomas forward
elimination (precomputed per mode by the missing `ThomasAlgorithm`). -/
def thomasC (dia off : ℕ → ℚ) : ℕ → ℚ
  | 0 => off 0 / dia 0
  | k + 1 => off (k + 1) / (dia (k + 1) - off (k + 1) * thomasC dia off k)

/-- Modelled from the spec: modified right-hand side of the Thomas forward
elimination. -/
def thomasD (dia off rhs : ℕ → ℚ) : ℕ → ℚ
  | 0 => rhs 0 / dia 0
  | k + 1 => (rhs (k + 1) - off (k + 1) * thomasD dia off rhs k)
      / (dia (k + 1) - off (k + 1) * thomasC dia off k)

/-- Modelled from the spec: Thomas back-substitution; argument `j` is the
distance below the last row, so `thomasBack c d last j` is the solution at
row `last - j`. -/
def thomasBack (c d : ℕ → ℚ) (last : ℕ) : ℕ → ℚ
  | 0 => d last
  | j + 1 => d (last - (j + 1)) - c (last - (j + 1)) * thomasBack c d last j

/-- Modelled from the spec: `ThomasAlgorithm::solve` applied to one mode,
returning the solution value at row `k` of the tridiagonal system with the
given diagonals and right-hand side, last row index `last`. -/
def thomasSolve (dia off rhs : ℕ → ℚ) (last k : ℕ) : ℚ :=
  thomasBack (thomasC dia off) (thomasD dia off rhs) last (last - k)

/-- `Sim::solveForPsi()` (sim.cpp lines 347-360): for each mode `n < nN`,
solve the per-mode tridiagonal system with right-hand side `ω_n`,
overwriting `ψ_n`; the solver itself is modelled from the spec. -/
def solveForPsi (P : Params) (s : SimState) : SimState :=
  { s with
    psi := fun n k =>
      if n < P.nN ∧ k < P.nZ then
        thomasSolve (triDia P n) (triOff P) (triRhs P (s.omg n)) (P.nZ - 1) k
      else s.psi n k }

/-- One iteration of the `Sim::runLinear` loop body after the convergence
check (sim.cpp lines 559-567): `computeLinearDerivatives(1)`,
`updateTmpAndOmg()` (default `f = 1.0`), `solveForPsi()`, `t += dt`,
`++current %= 2`. -/
def linearStepSim (P : Params) (s : SimState) : SimState :=
  let s3 := solveForPsi P (updateTmpAndOmg P 1 (computeLinearDerivatives P 1 s))
  { s3 with t := s3.t + P.dt, current := (s3.current + 1) % 2 }

/-- `Sim::calcKineticEnergyForMode(int n)` (sim.cpp lines 387-400):
trapezoidal-rule kinetic energy of mode `n`. -/
def calcKineticEnergyForMode (P : Params) (s : SimState) (n : ℕ) : ℚ :=
  (((n : ℚ) * P.pi / (P.a : ℚ) * s.psi n 0) ^ 2 / 2
    + ((n : ℚ) * P.pi / (P.a : ℚ) * s.psi n (P.nZ - 1)) ^ 2 / 2
    + ∑ k in Finset.Ico 1 (P.nZ - 1),
        ((dfdz (s.psi n) k (dzOf P)) ^ 2
          + ((n : ℚ) * P.pi / (P.a : ℚ) * s.psi n k) ^ 2))
  * ((1 - 0) * (P.a : ℚ) / (4 * ((P.nZ : ℚ) - 1)))

/-- `Sim::calcKineticEnergy()` (sim.cpp lines 402-409): total kinetic
energy, summed over all modes `n < nN`. -/
def calcKineticEnergy (P : Params) (s : SimState) : ℚ :=
  ∑ n in Finset.range P.nN, calcKineticEnergyForMode P s n

/-- The step proper of one `Sim::runNonLinear` iteration (sim.cpp lines
436-442): `computeLinearDerivatives(0)`, `computeNonLinearDerivatives()`,
`updateTmpAndOmg(f)`, `solveForPsi()`, `t += dt`, `++current %= 2`. -/
def nonLinearStepCore (P : Params) (f : ℚ) (s : SimState) : SimState :=
  let s4 := solveForPsi P (updateTmpAndOmg P f
    (computeNonLinearDerivatives P (computeLinearDerivatives P 0 s)))
  { s4 with t := s4.t + P.dt, current := (s4.current + 1) % 2 }

/-- Driver-level state of `Sim::runNonLinear` (sim.cpp lines 411-446): the
simulator state plus the three scheduler times, the CFL factor `f`, the
kinetic-energy diagnostics `kePrev`/`keCurrent` and the checkpoint
counter `saveNumber`. -/
structure NLState where
  sim : SimState
  saveTime : ℚ
  KEsaveTime : ℚ
  CFLCheckTime : ℚ
  f : ℚ
  kePrev : ℚ
  keCurrent : ℚ
  saveNumber : ℕ

/-- One iteration of the `Sim::runNonLinear` while loop (sim.cpp lines
420-443). The KE scheduler mirrors `saveKineticEnergy` (rolls
`kePrev`/`keCurrent`, advances its deadline by `1e-4`); the CFL scheduler
advances its deadline by `1e4*dt` and sets `f` from `checkCFL`, which
lives in the missing `numerical_methods.hpp` and is therefore passed in as
the parameter `cfl`; the save scheduler emits a checkpoint (file output is
not part of the state, only `saveNumber` advances). Then the step proper:
`computeLinearDerivatives(0)`, `computeNonLinearDerivatives()`,
`updateTmpAndOmg(f)`, `f = 1.0`, `solveForPsi()`, `t += dt`,
`++current %= 2`. -/
def nonLinearIteration (P : Params) (cfl : SimState → ℚ) (st : NLState) :
    NLState :=
  let st1 := if st.KEsaveTime - st.sim.t < P.EPSILON then
      { st with kePrev := st.keCurrent
                keCurrent := calcKineticEnergy P st.sim
                KEsaveTime := st.KEsaveTime + 1 / 10000 }
    else st
  let st2 := if st1.CFLCheckTime - st1.sim.t < P.EPSILON then
      { st1 with CFLCheckTime := st1.CFLCheckTime + 10000 * P.dt
                 f := cfl st1.sim }
    else st1
  let st3 := if st2.saveTime - st2.sim.t < P.EPSILON then
      { st2 with saveTime := st2.saveTime + P.timeBetweenSaves
                 saveNumber := st2.saveNumber + 1 }
    else st2
  { st3 with sim := nonLinearStepCore P st3.f st3.sim, f := 1 }

/-- The `Sim::runNonLinear` while loop (sim.cpp lines 420-443), guard
`totalTime - t > EPSILON`, with an explicit fuel bound on the number of
iterations. -/
def runNonLinearLoop (P : Params) (cfl : SimState → ℚ) :
    ℕ → NLState → NLState
  | 0, st => st
  | fuel + 1, st =>
    if P.EPSILON < P.totalTime - st.sim.t then
      runNonLinearLoop P cfl fuel (nonLinearIteration P cfl st)
    else st

/-- Number of doubles in a checkpoint written by `Sim::save`: seven blocks
of `nN*nZ` doubles each. -/
def saveBlobLen (P : Params) : ℕ := 7 * (P.nN * P.nZ)

/-- `Sim::save()` (sim.cpp lines 134-150) as a flat blob of doubles,
offset ↦ value: the seven `file.write` calls lay out `tmp`, `omg`, `psi`,
`dTmpdt + current*nZ*nN`, `dTmpdt + ((current+1)%2)*nZ*nN`,
`dOmgdt + current*nZ*nN`, `dOmgdt + ((current+1)%2)*nZ*nN`, each a block
of `nN*nZ` doubles in flat index order `n*nZ + k`. Offsets beyond the
written length read as 0. -/
def saveBlob (P : Params) (s : SimState) : ℕ → ℚ := fun i =>
  if i < P.nN * P.nZ then
    s.tmp (i / P.nZ) (i % P.nZ)
  else if i < 2 * (P.nN * P.nZ) then
    s.omg ((i - P.nN * P.nZ) / P.nZ) ((i - P.nN * P.nZ) % P.nZ)
  else if i < 3 * (P.nN * P.nZ) then
    s.psi ((i - 2 * (P.nN * P.nZ)) / P.nZ) ((i - 2 * (P.nN * P.nZ)) % P.nZ)
  else if i < 4 * (P.nN * P.nZ) then
    s.dTmpdt s.current ((i - 3 * (P.nN * P.nZ)) / P.nZ)
      ((i - 3 * (P.nN * P.nZ)) % P.nZ)
  else if i < 5 * (P.nN * P.nZ) then
    s.dTmpdt ((s.current + 1) % 2) ((i - 4 * (P.nN * P.nZ)) / P.nZ)
      ((i - 4 * (P.nN * P.nZ)) % P.nZ)
  else if i < 6 * (P.nN * P.nZ) then
    s.dOmgdt s.current ((i - 5 * (P.nN * P.nZ)) / P.nZ)
      ((i - 5 * (P.nN * P.nZ)) % P.nZ)
  else if i < 7 * (P.nN * P.nZ) then
    s.dOmgdt ((s.current + 1) % 2) ((i - 6 * (P.nN * P.nZ)) / P.nZ)
      ((i - 6 * (P.nN * P.nZ)) % P.nZ)
  else 0

/-- `Sim::load(...)` (sim.cpp lines 152-166) consuming a flat blob: the
seven `file.read` calls fill `tmp`, `omg`, `psi`, then the `current` slot
and the other slot of `dTmpdt`, then the `current` slot and the other slot
of `dOmgdt` of the receiving state, each from the next `nN*nZ` doubles. -/
def load (P : Params) (blob : ℕ → ℚ) (s : SimState) : SimState :=
  { s with
    tmp := fun n k =>
      if n < P.nN ∧ k < P.nZ then blob (n * P.nZ + k) else s.tmp n k
    omg := fun n k =>
      if n < P.nN ∧ k < P.nZ then blob (P.nN * P.nZ + (n * P.nZ + k))
      else s.omg n k
    psi := fun n k =>
      if n < P.nN ∧ k < P.nZ then blob (2 * (P.nN * P.nZ) + (n * P.nZ + k))
      else s.psi n k
    dTmpdt := fun sl n k =>
      if n < P.nN ∧ k < P.nZ then
        if sl = s.current then blob (3 * (P.nN * P.nZ) + (n * P.nZ + k))
        else if sl = (s.current + 1) % 2 then
          blob (4 * (P.nN * P.nZ) + (n * P.nZ + k))
        else s.dTmpdt sl n k
      else s.dTmpdt sl n k
    dOmgdt := fun sl n k =>
      if n < P.nN ∧ k < P.nZ then
        if sl = s.current then blob (5 * (P.nN * P.nZ) + (n * P.nZ + k))
        else if sl = (s.current + 1) % 2 then
          blob (6 * (P.nN * P.nZ) + (n * P.nZ + k))
        else s.dOmgdt sl n k
      else s.dOmgdt sl n k }

/-- Outcome of an I/O surface: the call returns normally or terminates the
process. -/
inductive IOOutcome where
  | ok : IOOutcome
  | fatal : IOOutcome
  deriving DecidableEq

/-- Control flow of `Sim::save()` (sim.cpp lines 134-150) as a function of
whether the `ofstream` opened: on failure it prints a diagnostic and calls
`exit(-1)`. -/
def saveOutcome (isOpen : Bool) : IOOutcome :=
  if isOpen then IOOutcome.ok else IOOutcome.fatal

/-- Control flow of `Sim::load(...)` (sim.cpp lines 152-166) as a function
of whether the `ifstream` opened: on failure it prints a diagnostic and
calls `exit(-1)`. -/
def loadOutcome (isOpen : Bool) : IOOutcome :=
  if isOpen then IOOutcome.ok else IOOutcome.fatal

/-- Control flow of `Sim::saveKineticEnergy()` (sim.cpp lines 168-185) as
a function of whether the total-energy `ofstream` opened: the function
never tests `is_open` and unconditionally proceeds to `file.write`, so it
returns normally either way. -/
def saveKineticEnergyOutcome (_isOpen : Bool) : IOOutcome :=
  IOOutcome.ok

/-- Control flow of the per-mode write loop of `Sim::saveKineticEnergy()`
(sim.cpp lines 178-184) as a function of whether the per-mode `ofstream`
opened: again no `is_open` test, the loop writes unconditionally. -/
def saveKineticEnergyModeOutcome (_isOpen : Bool) : IOOutcome :=
  IOOutcome.ok

/-- Flat index of the growth-rate probe read `tmp[32+nCrit*nZ]` in
`Sim::runLinear` (sim.cpp line 527; same pattern for `omg`, `psi`). -/
def probeFlatIndex (nZ nCrit : ℕ) : ℕ := 32 + nCrit * nZ

/-- Number of doubles in each field array (`new double[nN*nZ]`,
sim.cpp lines 87-89). -/
def fieldArrayLen (nN nZ : ℕ) : ℕ := nN * nZ

/-- Number of entries in each previous-probe snapshot array
(`double tmpPrev[nN]`, sim.cpp lines 501-506). -/
def snapshotArrayLen (nN : ℕ) : ℕ := nN

/-- Index set of the snapshot-store loop `for(int n=1; n<11; ++n)` in
`Sim::runLinear` (sim.cpp line 550): it writes `tmpPrev[n]` (and the
`omg`, `psi` duals) for exactly these `n`, independent of `nN`. -/
def snapshotStoreIndices : Finset ℕ := Finset.Ico 1 11

/-- Flat index of the probe read `tmp[n*nZ+32]` in
`Sim::printBenchmarkData` (sim.cpp line 383), whose loop runs `n < 21`
independent of `nN`. -/
def benchmarkFlatIndex (nZ n : ℕ) : ℕ := n * nZ + 32

/-- The snapshot-store assignment of `Sim::runLinear` (sim.cpp lines
550-557) applied to one previous-probe array: entries `n ∈ [1, 11)` take
the current probe value, every other entry keeps its old value. -/
def snapshotUpdate (probe prev : ℕ → ℚ) : ℕ → ℚ := fun n =>
  if 1 ≤ n ∧ n < 11 then probe n else prev n

/-- Driver-level state of the `Sim::runLinear` loop (sim.cpp lines
500-568): the simulator state, the three previous-probe snapshot arrays,
the three previous growth-rate estimates and the step counter. -/
structure RLState where
  sim : SimState
  tmpPrev : ℕ → ℚ
  omgPrev : ℕ → ℚ
  psiPrev : ℕ → ℚ
  logTmpPrev : ℚ
  logOmgPrev : ℚ
  logPsiPrev : ℚ
  steps : ℕ

/-- Growth-rate estimate of `Sim::runLinear` for the temperature probe,
`std::log(std::abs(tmp[32+nCrit*nZ])) - std::log(std::abs(tmpPrev[nCrit]))`
(sim.cpp line 527); `logF` stands for the external `std::log`. -/
def logTmpEstimate (logF : ℚ → ℚ) (nCrit : ℕ) (st : RLState) : ℚ :=
  logF |st.sim.tmp nCrit 32| - logF |st.tmpPrev nCrit|

/-- Growth-rate estimate for the vorticity probe (sim.cpp line 531). -/
def logOmgEstimate (logF : ℚ → ℚ) (nCrit : ℕ) (st : RLState) : ℚ :=
  logF |st.sim.omg nCrit 32| - logF |st.omgPrev nCrit|

/-- Growth-rate estimate for the streamfunction probe (sim.cpp line 532). -/
def logPsiEstimate (logF : ℚ → ℚ) (nCrit : ℕ) (st : RLState) : ℚ :=
  logF |st.sim.psi nCrit 32| - logF |st.psiPrev nCrit|

/-- The convergence tolerance of `Sim::runLinear`,
`double tolerance = 1e-10` (sim.cpp line 521). -/
def tolerance : ℚ := 1 / 10 ^ 10

/-- The `Sim::runLinear` while loop (sim.cpp lines 525-569, non-DDC
build), with an explicit fuel bound. Each iteration: while `t < totalTime`,
if `steps % 500 == 0` compute the three growth-rate estimates at the probe
row and return the temperature estimate if all three changed by less than
`tolerance` since the last check, otherwise roll the previous estimates
and snapshot arrays; then `steps++`, `computeLinearDerivatives(1)`,
`updateTmpAndOmg()`, `solveForPsi()`, `t += dt`, `++current %= 2`. On
loop exit return 0. -/
def runLinearLoop (P : Params) (logF : ℚ → ℚ) (nCrit : ℕ) :
    ℕ → RLState → ℚ
  | 0, _ => 0
  | fuel + 1, st =>
    if st.sim.t < P.totalTime then
      if st.steps % 500 = 0 then
        if |logTmpEstimate logF nCrit st - st.logTmpPrev| < tolerance
            ∧ |logOmgEstimate logF nCrit st - st.logOmgPrev| < tolerance
            ∧ |logPsiEstimate logF nCrit st - st.logPsiPrev| < tolerance then
          logTmpEstimate logF nCrit st
        else
          runLinearLoop P logF nCrit fuel
            { sim := linearStepSim P st.sim
              tmpPrev := snapshotUpdate (fun n => st.sim.tmp n 32) st.tmpPrev
              omgPrev := snapshotUpdate (fun n => st.sim.omg n 32) st.omgPrev
              psiPrev := snapshotUpdate (fun n => st.sim.psi n 32) st.psiPrev
              logTmpPrev := logTmpEstimate logF nCrit st
              logOmgPrev := logOmgEstimate logF nCrit st
              logPsiPrev := logPsiEstimate logF nCrit st
              steps := st.steps + 1 }
      else
        runLinearLoop P logF nCrit fuel
          { st with sim := linearStepSim P st.sim, steps := st.steps + 1 }
    else 0

/-- Concrete parameter set used by witnesses (values are arbitrary but
nondegenerate; `pi` stands for the double constant `M_PI`). -/
def Pw : Params :=
  { nZ := 4, nN := 3, a := 2, Pr := 5, Ra := 7, dt := 1/10
    totalTime := 1, timeBetweenSaves := 1/2, tmpGrad := -1
    pi := 3, EPSILON := 1/100000000 }

/-- Concrete simulator state used by witnesses. -/
def sw : SimState :=
  { tmp := fun n k => (n : ℚ) + (k : ℚ) / 2
    omg := fun n k => (n : ℚ) - (k : ℚ)
    psi := fun n k => (n : ℚ) * (k : ℚ) + 1
    dTmpdt := fun sl n k => (sl : ℚ) + (n : ℚ) + (k : ℚ)
    dOmgdt := fun sl n k => (sl : ℚ) * (n : ℚ) * (k : ℚ)
    current := 0
    t := 0 }

/-- All-zero simulator state: the state of a fresh `Sim` after `init`
zeroes every array (sim.cpp lines 99-113). -/
def s0 : SimState :=
  { tmp := fun _ _ => 0
    omg := fun _ _ => 0
    psi := fun _ _ => 0
    dTmpdt := fun _ _ _ => 0
    dOmgdt := fun _ _ _ => 0
    current := 0
    t := 0 }

/-- Concrete nonlinear-driver state used by witnesses, wrapping `s0`. -/
def NLw : NLState :=
  { sim := s0, saveTime := 0, KEsaveTime := 0, CFLCheckTime := 0
    f := 1, kePrev := 0, keCurrent := 0, saveNumber := 0 }

/-- Concrete linear-driver state used by witnesses, wrapping `sw`. -/
def RLw : RLState :=
  { sim := sw, tmpPrev := fun _ => 1, omgPrev := fun _ => 1
    psiPrev := fun _ => 1, logTmpPrev := 0, logOmgPrev := 0
    logPsiPrev := 0, steps := 0 }

/-- C1: for every mode `n` with `n_start ≤ n < N` (`n_start` is the
`linearSim` argument: 1 in linear run mode, 0 in nonlinear run mode) and
every interior vertical index `k ∈ [1, Z-2]`, the linear tendency pass
writes into the current slot `dT/dt[n,k] = ∂²T_n/∂z² - (nπ/a)²·T_n` and
`dω/dt[n,k] = Pr·(∂²ω_n/∂z² - (nπ/a)²·ω_n + Ra·(nπ/a)·T_n)`, and in
linear run mode (`linearSim = 1`) additionally adds
`-tmpGrad·(nπ/a)·ψ_n` to `dT/dt[n,k]`. -/
theorem C1_linear_tendency_formulas (P : Params) (s : SimState)
    (linearSim n k : ℕ) (hn1 : linearSim ≤ n) (hn2 : n < P.nN)
    (hk1 : 1 ≤ k) (hk2 : k ≤ P.nZ - 2) :
    (computeLinearDerivatives P linearSim s).dTmpdt s.current n k
      = dfdz2 (s.tmp n) k (dzOf P) - ((n : ℚ) * P.pi / (P.a : ℚ)) ^ 2 * s.tmp n k
        + (if linearSim = 1 then
            -(P.tmpGrad * ((n : ℚ) * P.pi / (P.a : ℚ)) * s.psi n k)
          else 0)
    ∧ (computeLinearDerivatives P linearSim s).dOmgdt s.current n k
      = P.Pr * (dfdz2 (s.omg n) k (dzOf P)
          - ((n : ℚ) * P.pi / (P.a : ℚ)) ^ 2 * s.omg n k
          + P.Ra * ((n : ℚ) * P.pi / (P.a : ℚ)) * s.tmp n k) := by
  have hk3 : k < P.nZ - 1 := by omega
  constructor
  · show (if _ ∧ _ ∧ _ ∧ _ ∧ _ then _ else _) = _
    rw [if_pos ⟨rfl, hn1, hn2, hk1, hk3⟩]
    by_cases h1 : linearSim = 1
    · rw [if_pos h1, if_pos h1]; ring
    · rw [if_neg h1, if_neg h1]
  · show (if _ ∧ _ ∧ _ ∧ _ ∧ _ then _ else _) = _
    rw [if_pos ⟨rfl, hn1, hn2, hk1, hk3⟩]
    ring

/-- Witness for C1 at `linearSim = 1`, `n = 1`, `k = 1` on concrete data. -/
theorem C1_linear_tendency_formulas_witness :
    (1 ≤ 1 ∧ 1 < Pw.nN ∧ 1 ≤ 1 ∧ 1 ≤ Pw.nZ - 2)
    ∧ ((computeLinearDerivatives Pw 1 sw).dTmpdt sw.current 1 1
        = dfdz2 (sw.tmp 1) 1 (dzOf Pw)
          - ((1 : ℚ) * Pw.pi / (Pw.a : ℚ)) ^ 2 * sw.tmp 1 1
          + (if (1 : ℕ) = 1 then
              -(Pw.tmpGrad * (((1 : ℕ) : ℚ) * Pw.pi / (Pw.a : ℚ)) * sw.psi 1 1)
            else 0)
      ∧ (computeLinearDerivatives Pw 1 sw).dOmgdt sw.current 1 1
        = Pw.Pr * (dfdz2 (sw.omg 1) 1 (dzOf Pw)
            - (((1 : ℕ) : ℚ) * Pw.pi / (Pw.a : ℚ)) ^ 2 * sw.omg 1 1
            + Pw.Ra * (((1 : ℕ) : ℚ) * Pw.pi / (Pw.a : ℚ)) * sw.tmp 1 1)) :=
  ⟨⟨le_refl 1, by decide, le_refl 1, by decide⟩,
    C1_linear_tendency_formulas Pw sw 1 1 1 (by decide) (by decide)
      (by decide) (by decide)⟩

/-- C2: in the nonlinear tendency pass, for every mode `n ∈ [1, N)`,
every `m ∈ [1, N-n-1]` with `o = n + m`, and every interior `k`, the
triad case `n = o - m` contributes
`-(π/2a)·(+m·∂ψ_o/∂z·T_m + o·∂T_m/∂z·ψ_o)` to `dT/dt[n,k]` but
contributes with the opposite overall sign,
`+(π/2a)·(+m·∂ψ_o/∂z·ω_m + o·∂ω_m/∂z·ψ_o)`, to `dω/dt[n,k]`; the kernel
accumulates exactly these summands over `m ∈ [1, N-n)` into the current
slot, and the pair `(n, m)` lies in that accumulation range. -/
theorem C2_triad_case3_signs (P : Params) (s : SimState) (n m k : ℕ)
    (hn1 : 1 ≤ n) (hn2 : n < P.nN) (hm1 : 1 ≤ m) (hm2 : n + m < P.nN)
    (hk1 : 1 ≤ k) (hk2 : k ≤ P.nZ - 2) :
    nlTmpCase3 P s n m k
      = -(P.pi / (2 * (P.a : ℚ))) *
          ((m : ℚ) * dfdz (s.psi (n + m)) k (dzOf P) * s.tmp m k
            + ((n + m : ℕ) : ℚ) * dfdz (s.tmp m) k (dzOf P) * s.psi (n + m) k)
    ∧ nlOmgCase3 P s n m k
      = (P.pi / (2 * (P.a : ℚ))) *
          ((m : ℚ) * dfdz (s.psi (n + m)) k (dzOf P) * s.omg m k
            + ((n + m : ℕ) : ℚ) * dfdz (s.omg m) k (dzOf P) * s.psi (n + m) k)
    ∧ (computeNonLinearDerivatives P s).dTmpdt s.current n k
      = s.dTmpdt s.current n k + nlTmpFromMean P s n k
          + ∑ j in Finset.Ico 1 n, nlTmpCase1 P s n j k
          + ∑ j in Finset.Ico (n + 1) P.nN, nlTmpCase2 P s n j k
          + ∑ j in Finset.Ico 1 (P.nN - n), nlTmpCase3 P s n j k
    ∧ (computeNonLinearDerivatives P s).dOmgdt s.current n k
      = s.dOmgdt s.current n k
          + ∑ j in Finset.Ico 1 n, nlOmgCase1 P s n j k
          + ∑ j in Finset.Ico (n + 1) P.nN, nlOmgCase2 P s n j k
          + ∑ j in Finset.Ico 1 (P.nN - n), nlOmgCase3 P s n j k
    ∧ m ∈ Finset.Ico 1 (P.nN - n) := by
  have hk3 : k < P.nZ - 1 := by omega
  refine ⟨by unfold nlTmpCase3; ring, by unfold nlOmgCase3; ring, ?_, ?_, ?_⟩
  · show (if _ ∧ _ ∧ _ then _ else _) = _
    rw [if_pos ⟨rfl, hk1, hk3⟩, if_neg (by omega : ¬ n = 0), if_pos hn2]
  · show (if _ ∧ _ ∧ _ ∧ _ ∧ _ then _ else _) = _
    rw [if_pos ⟨rfl, hk1, hk3, hn1, hn2⟩]
  · rw [Finset.mem_Ico]
    omega

/-- Witness for C2 at `n = 1`, `m = 1` (so `o = 2`), `k = 1` on
concrete data. -/
theorem C2_triad_case3_signs_witness :
    (1 ≤ 1 ∧ 1 < Pw.nN ∧ 1 + 1 < Pw.nN ∧ 1 ≤ Pw.nZ - 2)
    ∧ (nlTmpCase3 Pw sw 1 1 1
        = -(Pw.pi / (2 * (Pw.a : ℚ))) *
            (((1 : ℕ) : ℚ) * dfdz (sw.psi (1 + 1)) 1 (dzOf Pw) * sw.tmp 1 1
              + ((1 + 1 : ℕ) : ℚ) * dfdz (sw.tmp 1) 1 (dzOf Pw) * sw.psi (1 + 1) 1)
      ∧ nlOmgCase3 Pw sw 1 1 1
        = (Pw.pi / (2 * (Pw.a : ℚ))) *
            (((1 : ℕ) : ℚ) * dfdz (sw.psi (1 + 1)) 1 (dzOf Pw) * sw.omg 1 1
              + ((1 + 1 : ℕ) : ℚ) * dfdz (sw.omg 1) 1 (dzOf Pw) * sw.psi (1 + 1) 1)
      ∧ (computeNonLinearDerivatives Pw sw).dTmpdt sw.current 1 1
        = sw.dTmpdt sw.current 1 1 + nlTmpFromMean Pw sw 1 1
            + ∑ j in Finset.Ico 1 1, nlTmpCase1 Pw sw 1 j 1
            + ∑ j in Finset.Ico (1 + 1) Pw.nN, nlTmpCase2 Pw sw 1 j 1
            + ∑ j in Finset.Ico 1 (Pw.nN - 1), nlTmpCase3 Pw sw 1 j 1
      ∧ (computeNonLinearDerivatives Pw sw).dOmgdt sw.current 1 1
        = sw.dOmgdt sw.current 1 1
            + ∑ j in Finset.Ico 1 1, nlOmgCase1 Pw sw 1 j 1
            + ∑ j in Finset.Ico (1 + 1) Pw.nN, nlOmgCase2 Pw sw 1 j 1
            + ∑ j in Finset.Ico 1 (Pw.nN - 1), nlOmgCase3 Pw sw 1 j 1
      ∧ 1 ∈ Finset.Ico 1 (Pw.nN - 1)) :=
  ⟨⟨le_refl 1, by decide, by decide, by decide⟩,
    C2_triad_case3_signs Pw sw 1 1 1 (by decide) (by decide) (by decide)
      (by decide) (by decide) (by decide)⟩

/-- Helper: the linear tendency pass never touches a boundary row
(`k = 0` or `k = nZ-1`) of either tendency buffer, in any slot. -/
theorem linearDeriv_frame_boundary (P : Params) (lin : ℕ) (s : SimState)
    (sl n k : ℕ) (hk : k = 0 ∨ k = P.nZ - 1) :
    (computeLinearDerivatives P lin s).dTmpdt sl n k = s.dTmpdt sl n k
    ∧ (computeLinearDerivatives P lin s).dOmgdt sl n k = s.dOmgdt sl n k := by
  constructor <;>
  · show (if _ then _ else _) = _
    rw [if_neg]
    rintro ⟨-, -, -, h1, h2⟩
    rcases hk with hk | hk <;> omega

/-- Helper: the nonlinear tendency pass never touches a boundary row of
either tendency buffer, in any slot. -/
theorem nonLinearDeriv_frame_boundary (P : Params) (s : SimState)
    (sl n k : ℕ) (hk : k = 0 ∨ k = P.nZ - 1) :
    (computeNonLinearDerivatives P s).dTmpdt sl n k = s.dTmpdt sl n k
    ∧ (computeNonLinearDerivatives P s).dOmgdt sl n k = s.dOmgdt sl n k := by
  constructor
  · show (if _ then _ else _) = _
    rw [if_neg]
    rintro ⟨-, h1, h2⟩
    rcases hk with hk | hk <;> omega
  · show (if _ then _ else _) = _
    rw [if_neg]
    rintro ⟨-, h1, h2, -, -⟩
    rcases hk with hk | hk <;> omega

/-- Helper: the linear tendency pass never writes a slot other than
`current`. -/
theorem linearDeriv_frame_otherSlot (P : Params) (lin : ℕ) (s : SimState)
    (sl n k : ℕ) (hsl : sl ≠ s.current) :
    (computeLinearDerivatives P lin s).dTmpdt sl n k = s.dTmpdt sl n k
    ∧ (computeLinearDerivatives P lin s).dOmgdt sl n k = s.dOmgdt sl n k := by
  constructor <;>
  · show (if _ then _ else _) = _
    rw [if_neg]
    rintro ⟨h, -⟩
    exact hsl h

/-- Helper: the nonlinear tendency pass never writes a slot other than
`current`. -/
theorem nonLinearDeriv_frame_otherSlot (P : Params) (s : SimState)
    (sl n k : ℕ) (hsl : sl ≠ s.current) :
    (computeNonLinearDerivatives P s).dTmpdt sl n k = s.dTmpdt sl n k
    ∧ (computeNonLinearDerivatives P s).dOmgdt sl n k = s.dOmgdt sl n k := by
  constructor
  · show (if _ then _ else _) = _
    rw [if_neg]
    rintro ⟨h, -⟩
    exact hsl h
  · show (if _ then _ else _) = _
    rw [if_neg]
    rintro ⟨h, -⟩
    exact hsl h

/-- Helper: `adamsBashforth` of two zero tendencies vanishes, so the
update leaves `tmp` unchanged where both slots hold zero. -/
theorem update_tmp_frame_point (P : Params) (f : ℚ) (s : SimState) (n k : ℕ)
    (hc : s.current < 2) (h0 : s.dTmpdt 0 n k = 0) (h1 : s.dTmpdt 1 n k = 0) :
    (updateTmpAndOmg P f s).tmp n k = s.tmp n k := by
  show (if _ then _ else _) = _
  by_cases h : n < P.nN ∧ k < P.nZ
  · rw [if_pos h]
    have e1 : s.dTmpdt s.current n k = 0 := by
      have : s.current = 0 ∨ s.current = 1 := by omega
      rcases this with hx | hx <;> rw [hx] <;> assumption
    have e2 : s.dTmpdt ((s.current + 1) % 2) n k = 0 := by
      have : (s.current + 1) % 2 = 0 ∨ (s.current + 1) % 2 = 1 := by omega
      rcases this with hx | hx <;> rw [hx] <;> assumption
    rw [e1, e2]
    unfold adamsBashforth
    ring
  · rw [if_neg h]

/-- Helper: the update leaves `omg` unchanged where both slots hold zero. -/
theorem update_omg_frame_point (P : Params) (f : ℚ) (s : SimState) (n k : ℕ)
    (hc : s.current < 2) (h0 : s.dOmgdt 0 n k = 0) (h1 : s.dOmgdt 1 n k = 0) :
    (updateTmpAndOmg P f s).omg n k = s.omg n k := by
  show (if _ then _ else _) = _
  by_cases h : n < P.nN ∧ k < P.nZ
  · rw [if_pos h]
    have e1 : s.dOmgdt s.current n k = 0 := by
      have : s.current = 0 ∨ s.current = 1 := by omega
      rcases this with hx | hx <;> rw [hx] <;> assumption
    have e2 : s.dOmgdt ((s.current + 1) % 2) n k = 0 := by
      have : (s.current + 1) % 2 = 0 ∨ (s.current + 1) % 2 = 1 := by omega
      rcases this with hx | hx <;> rw [hx] <;> assumption
    rw [e1, e2]
    unfold adamsBashforth
    ring
  · rw [if_neg h]

/-- Helper: the update leaves `omg` unchanged where every slot holds zero
(no constraint on `current`). -/
theorem update_omg_point_zero_tendency (P : Params) (f : ℚ) (s : SimState)
    (n k : ℕ) (ht : ∀ sl, s.dOmgdt sl n k = 0) :
    (updateTmpAndOmg P f s).omg n k = s.omg n k := by
  show (if _ then _ else _) = _
  by_cases h : n < P.nN ∧ k < P.nZ
  · rw [if_pos h, ht s.current, ht ((s.current + 1) % 2)]
    unfold adamsBashforth
    ring
  · rw [if_neg h]

/-- Helper: the Dirichlet end row makes the Thomas solution exactly zero
at the last row `k = nZ-1`. -/
theorem thomasSolve_last_zero (P : Params) (n : ℕ) (g : ℕ → ℚ)
    (hZ : 2 ≤ P.nZ) :
    thomasSolve (triDia P n) (triOff P) (triRhs P g) (P.nZ - 1) (P.nZ - 1)
      = 0 := by
  obtain ⟨j, hj⟩ : ∃ j, P.nZ - 1 = j + 1 := ⟨P.nZ - 2, by omega⟩
  have hoff : triOff P (j + 1) = 0 := by
    unfold triOff
    rw [if_pos (Or.inr hj.symm)]
  have hrhs : triRhs P g (j + 1) = 0 := by
    unfold triRhs
    rw [if_pos (Or.inr hj.symm)]
  unfold thomasSolve
  rw [hj, Nat.sub_self]
  simp only [thomasBack]
  simp only [thomasD]
  rw [hrhs, hoff]
  simp

/-- Helper: the Dirichlet end row makes the Thomas solution exactly zero
at the first row `k = 0`. -/
theorem thomasSolve_first_zero (P : Params) (n : ℕ) (g : ℕ → ℚ)
    (hZ : 2 ≤ P.nZ) :
    thomasSolve (triDia P n) (triOff P) (triRhs P g) (P.nZ - 1) 0 = 0 := by
  obtain ⟨j, hj⟩ : ∃ j, P.nZ - 1 = j + 1 := ⟨P.nZ - 2, by omega⟩
  have hoff0 : triOff P 0 = 0 := by
    unfold triOff
    rw [if_pos (Or.inl rfl)]
  have hrhs0 : triRhs P g 0 = 0 := by
    unfold triRhs
    rw [if_pos (Or.inl rfl)]
  have hd0 : thomasD (triDia P n) (triOff P) (triRhs P g) 0 = 0 := by
    simp only [thomasD]
    rw [hrhs0]
    simp
  have hc0 : thomasC (triDia P n) (triOff P) 0 = 0 := by
    simp only [thomasC]
    rw [hoff0]
    simp
  unfold thomasSolve
  rw [hj, Nat.sub_zero]
  simp only [thomasBack]
  rw [Nat.sub_self, hd0, hc0]
  simp

/-- Helper: after `solveForPsi`, every solved mode has exactly zero
streamfunction on both boundary rows. -/
theorem solveForPsi_boundary (P : Params) (s : SimState) (hZ : 2 ≤ P.nZ)
    (n : ℕ) (hn : n < P.nN) :
    (solveForPsi P s).psi n 0 = 0
    ∧ (solveForPsi P s).psi n (P.nZ - 1) = 0 := by
  constructor
  · show (if _ then _ else _) = _
    rw [if_pos ⟨hn, by omega⟩]
    exact thomasSolve_first_zero P n (s.omg n) hZ
  · show (if _ then _ else _) = _
    rw [if_pos ⟨hn, by omega⟩]
    exact thomasSolve_last_zero P n (s.omg n) hZ

/-- Helper: the scheduler branches of a `runNonLinear` iteration never
touch the simulator fields, so the iteration is exactly the step core run
with the possibly CFL-adjusted factor, after which `f` is reset to 1. -/
theorem nonLinearIteration_core (P : Params) (cfl : SimState → ℚ)
    (st : NLState) :
    (nonLinearIteration P cfl st).sim
      = nonLinearStepCore P
          (if st.CFLCheckTime - st.sim.t < P.EPSILON then cfl st.sim else st.f)
          st.sim
    ∧ (nonLinearIteration P cfl st).f = 1 := by
  unfold nonLinearIteration
  by_cases h1 : st.KEsaveTime - st.sim.t < P.EPSILON <;>
  by_cases h2 : st.CFLCheckTime - st.sim.t < P.EPSILON <;>
  by_cases h3 : st.saveTime - st.sim.t < P.EPSILON <;>
  simp [h1, h2, h3]

/-- C10: both tendency kernels write only interior rows `k ∈ [1, Z-2]` of
the current tendency slot — they never write the boundary rows `k = 0`
and `k = Z-1` of any tendency buffer, and never write a slot other than
`current`; consequently, whenever both tendency slots are zero at the
boundary rows, the Adams-Bashforth update leaves `T[n,0]`, `T[n,Z-1]`,
`ω[n,0]` and `ω[n,Z-1]` exactly unchanged. -/
theorem C10_boundary_frame (P : Params) (lin : ℕ) (s : SimState) (f : ℚ)
    (sl n k sl2 n2 k2 : ℕ) (hk : k = 0 ∨ k = P.nZ - 1)
    (hsl2 : sl2 ≠ s.current) :
    (computeLinearDerivatives P lin s).dTmpdt sl n k = s.dTmpdt sl n k
    ∧ (computeLinearDerivatives P lin s).dOmgdt sl n k = s.dOmgdt sl n k
    ∧ (computeNonLinearDerivatives P s).dTmpdt sl n k = s.dTmpdt sl n k
    ∧ (computeNonLinearDerivatives P s).dOmgdt sl n k = s.dOmgdt sl n k
    ∧ (computeLinearDerivatives P lin s).dTmpdt sl2 n2 k2 = s.dTmpdt sl2 n2 k2
    ∧ (computeLinearDerivatives P lin s).dOmgdt sl2 n2 k2 = s.dOmgdt sl2 n2 k2
    ∧ (computeNonLinearDerivatives P s).dTmpdt sl2 n2 k2 = s.dTmpdt sl2 n2 k2
    ∧ (computeNonLinearDerivatives P s).dOmgdt sl2 n2 k2 = s.dOmgdt sl2 n2 k2
    ∧ (s.current < 2 → s.dTmpdt 0 n k = 0 → s.dTmpdt 1 n k = 0 →
        (updateTmpAndOmg P f s).tmp n k = s.tmp n k)
    ∧ (s.current < 2 → s.dOmgdt 0 n k = 0 → s.dOmgdt 1 n k = 0 →
        (updateTmpAndOmg P f s).omg n k = s.omg n k) :=
  ⟨(linearDeriv_frame_boundary P lin s sl n k hk).1,
    (linearDeriv_frame_boundary P lin s sl n k hk).2,
    (nonLinearDeriv_frame_boundary P s sl n k hk).1,
    (nonLinearDeriv_frame_boundary P s sl n k hk).2,
    (linearDeriv_frame_otherSlot P lin s sl2 n2 k2 hsl2).1,
    (linearDeriv_frame_otherSlot P lin s sl2 n2 k2 hsl2).2,
    (nonLinearDeriv_frame_otherSlot P s sl2 n2 k2 hsl2).1,
    (nonLinearDeriv_frame_otherSlot P s sl2 n2 k2 hsl2).2,
    fun hc h0 h1 => update_tmp_frame_point P f s n k hc h0 h1,
    fun hc h0 h1 => update_omg_frame_point P f s n k hc h0 h1⟩

/-- Witness for C10 at the boundary row `k = 0`, other slot `sl2 = 1`,
on the all-zero state. -/
theorem C10_boundary_frame_witness :
    ((0 = 0 ∨ 0 = Pw.nZ - 1) ∧ (1 : ℕ) ≠ s0.current ∧ s0.current < 2
      ∧ s0.dTmpdt 0 0 0 = 0 ∧ s0.dTmpdt 1 0 0 = 0
      ∧ s0.dOmgdt 0 0 0 = 0 ∧ s0.dOmgdt 1 0 0 = 0)
    ∧ ((computeLinearDerivatives Pw 1 s0).dTmpdt 0 0 0 = s0.dTmpdt 0 0 0
      ∧ (computeLinearDerivatives Pw 1 s0).dOmgdt 0 0 0 = s0.dOmgdt 0 0 0
      ∧ (computeNonLinearDerivatives Pw s0).dTmpdt 0 0 0 = s0.dTmpdt 0 0 0
      ∧ (computeNonLinearDerivatives Pw s0).dOmgdt 0 0 0 = s0.dOmgdt 0 0 0
      ∧ (computeLinearDerivatives Pw 1 s0).dTmpdt 1 0 1 = s0.dTmpdt 1 0 1
      ∧ (computeLinearDerivatives Pw 1 s0).dOmgdt 1 0 1 = s0.dOmgdt 1 0 1
      ∧ (computeNonLinearDerivatives Pw s0).dTmpdt 1 0 1 = s0.dTmpdt 1 0 1
      ∧ (computeNonLinearDerivatives Pw s0).dOmgdt 1 0 1 = s0.dOmgdt 1 0 1
      ∧ (s0.current < 2 → s0.dTmpdt 0 0 0 = 0 → s0.dTmpdt 1 0 0 = 0 →
          (updateTmpAndOmg Pw (1/2) s0).tmp 0 0 = s0.tmp 0 0)
      ∧ (s0.current < 2 → s0.dOmgdt 0 0 0 = 0 → s0.dOmgdt 1 0 0 = 0 →
          (updateTmpAndOmg Pw (1/2) s0).omg 0 0 = s0.omg 0 0)) :=
  ⟨⟨Or.inl rfl, by decide, by decide, rfl, rfl, rfl, rfl⟩,
    C10_boundary_frame Pw 1 s0 (1/2) 0 0 0 1 0 1 (Or.inl rfl) (by decide)⟩

/-- C4: each nonlinear-driver iteration performs exactly the sequence
linear tendencies (`n_start = 0`), nonlinear tendencies, Adams-Bashforth
update of `T` and `ω` with the current CFL factor `f`, Poisson solve for
`ψ`, then `t` advances by `dt` and `current` becomes `(current+1) mod 2`
(this is `nonLinearStepCore`, whose definition is exactly that
composition); `f` is reset to 1 by the iteration so a CFL reduction
applies for one step only, and while the loop guard holds the driver loop
runs exactly this iteration. -/
theorem C4_nonlinear_iteration_sequence (P : Params) (cfl : SimState → ℚ)
    (st : NLState) (fuel : ℕ) :
    (nonLinearIteration P cfl st).sim
      = nonLinearStepCore P
          (if st.CFLCheckTime - st.sim.t < P.EPSILON then cfl st.sim else st.f)
          st.sim
    ∧ (nonLinearIteration P cfl st).sim.t = st.sim.t + P.dt
    ∧ (nonLinearIteration P cfl st).sim.current = (st.sim.current + 1) % 2
    ∧ (nonLinearIteration P cfl st).f = 1
    ∧ (P.EPSILON < P.totalTime - st.sim.t →
        runNonLinearLoop P cfl (fuel + 1) st
          = runNonLinearLoop P cfl fuel (nonLinearIteration P cfl st)) := by
  obtain ⟨h1, h2⟩ := nonLinearIteration_core P cfl st
  refine ⟨h1, ?_, ?_, h2, ?_⟩
  · rw [h1]; rfl
  · rw [h1]; rfl
  · intro hg
    show (if _ then _ else _) = _
    rw [if_pos hg]

/-- Witness for C4 on the concrete driver state `NLw` with one unit of
loop fuel. -/
theorem C4_nonlinear_iteration_sequence_witness :
    (Pw.EPSILON < Pw.totalTime - NLw.sim.t)
    ∧ ((nonLinearIteration Pw (fun _ => (1 : ℚ)) NLw).sim
        = nonLinearStepCore Pw
            (if NLw.CFLCheckTime - NLw.sim.t < Pw.EPSILON then
              (fun _ => (1 : ℚ)) NLw.sim
            else NLw.f)
            NLw.sim
      ∧ (nonLinearIteration Pw (fun _ => (1 : ℚ)) NLw).sim.t
          = NLw.sim.t + Pw.dt
      ∧ (nonLinearIteration Pw (fun _ => (1 : ℚ)) NLw).sim.current
          = (NLw.sim.current + 1) % 2
      ∧ (nonLinearIteration Pw (fun _ => (1 : ℚ)) NLw).f = 1
      ∧ (Pw.EPSILON < Pw.totalTime - NLw.sim.t →
          runNonLinearLoop Pw (fun _ => (1 : ℚ)) (0 + 1) NLw
            = runNonLinearLoop Pw (fun _ => (1 : ℚ)) 0
                (nonLinearIteration Pw (fun _ => (1 : ℚ)) NLw))) :=
  ⟨by norm_num [Pw, NLw, s0], C4_nonlinear_iteration_sequence Pw (fun _ => (1 : ℚ)) NLw 0⟩

/-- C3: after an integrator step in either run mode (the linear-loop step
or the nonlinear-driver iteration), starting from a state whose `ω`
boundary rows and `dω/dt` boundary rows (both slots) are zero — as after
construction and linear seeding — `ψ[n,0] = ψ[n,Z-1] = 0` holds exactly
for every solved mode `n < N`, `ω[n,0] = ω[n,Z-1] = 0` holds exactly for
every mode, and hence `ω` at the boundary rows is within every `ε > 0` of
zero. -/
theorem C3_boundary_conditions_after_step (P : Params) (cfl : SimState → ℚ)
    (st : NLState) (hZ : 2 ≤ P.nZ)
    (ho0 : ∀ n, st.sim.omg n 0 = 0) (ho1 : ∀ n, st.sim.omg n (P.nZ - 1) = 0)
    (ht0 : ∀ sl n, st.sim.dOmgdt sl n 0 = 0)
    (ht1 : ∀ sl n, st.sim.dOmgdt sl n (P.nZ - 1) = 0) :
    (∀ n, n < P.nN →
      (linearStepSim P st.sim).psi n 0 = 0
      ∧ (linearStepSim P st.sim).psi n (P.nZ - 1) = 0
      ∧ (nonLinearIteration P cfl st).sim.psi n 0 = 0
      ∧ (nonLinearIteration P cfl st).sim.psi n (P.nZ - 1) = 0)
    ∧ (∀ n,
      (linearStepSim P st.sim).omg n 0 = 0
      ∧ (linearStepSim P st.sim).omg n (P.nZ - 1) = 0
      ∧ (nonLinearIteration P cfl st).sim.omg n 0 = 0
      ∧ (nonLinearIteration P cfl st).sim.omg n (P.nZ - 1) = 0)
    ∧ (∀ ε : ℚ, 0 < ε → ∀ n,
      |(linearStepSim P st.sim).omg n 0| < ε
      ∧ |(linearStepSim P st.sim).omg n (P.nZ - 1)| < ε
      ∧ |(nonLinearIteration P cfl st).sim.omg n 0| < ε
      ∧ |(nonLinearIteration P cfl st).sim.omg n (P.nZ - 1)| < ε) := by
  obtain ⟨hcore, -⟩ := nonLinearIteration_core P cfl st
  have hpsi : ∀ n, n < P.nN →
      (linearStepSim P st.sim).psi n 0 = 0
      ∧ (linearStepSim P st.sim).psi n (P.nZ - 1) = 0
      ∧ (nonLinearIteration P cfl st).sim.psi n 0 = 0
      ∧ (nonLinearIteration P cfl st).sim.psi n (P.nZ - 1) = 0 := by
    intro n hn
    refine ⟨?_, ?_, ?_, ?_⟩
    · exact (solveForPsi_boundary P
        (updateTmpAndOmg P 1 (computeLinearDerivatives P 1 st.sim)) hZ n hn).1
    · exact (solveForPsi_boundary P
        (updateTmpAndOmg P 1 (computeLinearDerivatives P 1 st.sim)) hZ n hn).2
    · rw [hcore]
      exact (solveForPsi_boundary P (updateTmpAndOmg P _
        (computeNonLinearDerivatives P (computeLinearDerivatives P 0 st.sim)))
        hZ n hn).1
    · rw [hcore]
      exact (solveForPsi_boundary P (updateTmpAndOmg P _
        (computeNonLinearDerivatives P (computeLinearDerivatives P 0 st.sim)))
        hZ n hn).2
  have homg : ∀ n,
      (linearStepSim P st.sim).omg n 0 = 0
      ∧ (linearStepSim P st.sim).omg n (P.nZ - 1) = 0
      ∧ (nonLinearIteration P cfl st).sim.omg n 0 = 0
      ∧ (nonLinearIteration P cfl st).sim.omg n (P.nZ - 1) = 0 := by
    intro n
    refine ⟨?_, ?_, ?_, ?_⟩
    · exact (update_omg_point_zero_tendency P 1
        (computeLinearDerivatives P 1 st.sim) n 0
        (fun sl => ((linearDeriv_frame_boundary P 1 st.sim sl n 0
          (Or.inl rfl)).2).trans (ht0 sl n))).trans (ho0 n)
    · exact (update_omg_point_zero_tendency P 1
        (computeLinearDerivatives P 1 st.sim) n (P.nZ - 1)
        (fun sl => ((linearDeriv_frame_boundary P 1 st.sim sl n (P.nZ - 1)
          (Or.inr rfl)).2).trans (ht1 sl n))).trans (ho1 n)
    · rw [hcore]
      exact (update_omg_point_zero_tendency P _
        (computeNonLinearDerivatives P (computeLinearDerivatives P 0 st.sim)) n 0
        (fun sl => ((nonLinearDeriv_frame_boundary P
            (computeLinearDerivatives P 0 st.sim) sl n 0 (Or.inl rfl)).2).trans
          (((linearDeriv_frame_boundary P 0 st.sim sl n 0
            (Or.inl rfl)).2).trans (ht0 sl n)))).trans (ho0 n)
    · rw [hcore]
      exact (update_omg_point_zero_tendency P _
        (computeNonLinearDerivatives P (computeLinearDerivatives P 0 st.sim)) n
        (P.nZ - 1)
        (fun sl => ((nonLinearDeriv_frame_boundary P
            (computeLinearDerivatives P 0 st.sim) sl n (P.nZ - 1)
            (Or.inr rfl)).2).trans
          (((linearDeriv_frame_boundary P 0 st.sim sl n (P.nZ - 1)
            (Or.inr rfl)).2).trans (ht1 sl n)))).trans (ho1 n)
  refine ⟨hpsi, homg, ?_⟩
  intro ε hε n
  obtain ⟨e1, e2, e3, e4⟩ := homg n
  refine ⟨?_, ?_, ?_, ?_⟩
  · rw [e1]; simpa using hε
  · rw [e2]; simpa using hε
  · rw [e3]; simpa using hε
  · rw [e4]; simpa using hε

/-- Witness for C3 on the zeroed driver state `NLw` (whose simulator
state is the freshly initialised all-zero `s0`). -/
theorem C3_boundary_conditions_witness :
    (2 ≤ Pw.nZ ∧ (∀ n, NLw.sim.omg n 0 = 0)
      ∧ (∀ n, NLw.sim.omg n (Pw.nZ - 1) = 0)
      ∧ (∀ sl n, NLw.sim.dOmgdt sl n 0 = 0)
      ∧ (∀ sl n, NLw.sim.dOmgdt sl n (Pw.nZ - 1) = 0))
    ∧ ((∀ n, n < Pw.nN →
        (linearStepSim Pw NLw.sim).psi n 0 = 0
        ∧ (linearStepSim Pw NLw.sim).psi n (Pw.nZ - 1) = 0
        ∧ (nonLinearIteration Pw (fun _ => (1 : ℚ)) NLw).sim.psi n 0 = 0
        ∧ (nonLinearIteration Pw (fun _ => (1 : ℚ)) NLw).sim.psi n (Pw.nZ - 1)
            = 0)
      ∧ (∀ n,
        (linearStepSim Pw NLw.sim).omg n 0 = 0
        ∧ (linearStepSim Pw NLw.sim).omg n (Pw.nZ - 1) = 0
        ∧ (nonLinearIteration Pw (fun _ => (1 : ℚ)) NLw).sim.omg n 0 = 0
        ∧ (nonLinearIteration Pw (fun _ => (1 : ℚ)) NLw).sim.omg n (Pw.nZ - 1)
            = 0)
      ∧ (∀ ε : ℚ, 0 < ε → ∀ n,
        |(linearStepSim Pw NLw.sim).omg n 0| < ε
        ∧ |(linearStepSim Pw NLw.sim).omg n (Pw.nZ - 1)| < ε
        ∧ |(nonLinearIteration Pw (fun _ => (1 : ℚ)) NLw).sim.omg n 0| < ε
        ∧ |(nonLinearIteration Pw (fun _ => (1 : ℚ)) NLw).sim.omg n
            (Pw.nZ - 1)| < ε)) :=
  ⟨⟨by decide, fun _ => rfl, fun _ => rfl, fun _ _ => rfl, fun _ _ => rfl⟩,
    C3_boundary_conditions_after_step Pw (fun _ => (1 : ℚ)) NLw (by decide)
      (fun _ => rfl) (fun _ => rfl) (fun _ _ => rfl) (fun _ _ => rfl)⟩

/-- Helper: quotient of the flat field index `n*nZ + k` recovers the
mode index. -/
theorem flatIdx_div (nZ n k : ℕ) (hk : k < nZ) : (n * nZ + k) / nZ = n := by
  have h0 : 0 < nZ := by omega
  rw [Nat.add_comm, Nat.add_mul_div_right _ _ h0, Nat.div_eq_of_lt hk]
  omega

/-- Helper: remainder of the flat field index `n*nZ + k` recovers the
vertical index. -/
theorem flatIdx_mod (nZ n k : ℕ) (hk : k < nZ) : (n * nZ + k) % nZ = k := by
  rw [Nat.add_comm, Nat.add_mul_mod_self_right, Nat.mod_eq_of_lt hk]

/-- Helper: looking up the checkpoint blob inside each of the seven
`nN*nZ`-sized sections returns the corresponding array entry. -/
theorem saveBlob_sections (P : Params) (s : SimState) (q : ℕ)
    (hq : q < P.nN * P.nZ) :
    saveBlob P s q = s.tmp (q / P.nZ) (q % P.nZ)
    ∧ saveBlob P s (P.nN * P.nZ + q) = s.omg (q / P.nZ) (q % P.nZ)
    ∧ saveBlob P s (2 * (P.nN * P.nZ) + q) = s.psi (q / P.nZ) (q % P.nZ)
    ∧ saveBlob P s (3 * (P.nN * P.nZ) + q)
        = s.dTmpdt s.current (q / P.nZ) (q % P.nZ)
    ∧ saveBlob P s (4 * (P.nN * P.nZ) + q)
        = s.dTmpdt ((s.current + 1) % 2) (q / P.nZ) (q % P.nZ)
    ∧ saveBlob P s (5 * (P.nN * P.nZ) + q)
        = s.dOmgdt s.current (q / P.nZ) (q % P.nZ)
    ∧ saveBlob P s (6 * (P.nN * P.nZ) + q)
        = s.dOmgdt ((s.current + 1) % 2) (q / P.nZ) (q % P.nZ) := by
  unfold saveBlob
  refine ⟨?_, ?_, ?_, ?_, ?_, ?_, ?_⟩
  · rw [if_pos hq]
  · rw [if_neg (by omega), if_pos (by omega)]
    have e : P.nN * P.nZ + q - P.nN * P.nZ = q := by omega
    rw [e]
  · rw [if_neg (by omega), if_neg (by omega), if_pos (by omega)]
    have e : 2 * (P.nN * P.nZ) + q - 2 * (P.nN * P.nZ) = q := by omega
    rw [e]
  · rw [if_neg (by omega), if_neg (by omega), if_neg (by omega),
      if_pos (by omega)]
    have e : 3 * (P.nN * P.nZ) + q - 3 * (P.nN * P.nZ) = q := by omega
    rw [e]
  · rw [if_neg (by omega), if_neg (by omega), if_neg (by omega),
      if_neg (by omega), if_pos (by omega)]
    have e : 4 * (P.nN * P.nZ) + q - 4 * (P.nN * P.nZ) = q := by omega
    rw [e]
  · rw [if_neg (by omega), if_neg (by omega), if_neg (by omega),
      if_neg (by omega), if_neg (by omega), if_pos (by omega)]
    have e : 5 * (P.nN * P.nZ) + q - 5 * (P.nN * P.nZ) = q := by omega
    rw [e]
  · rw [if_neg (by omega), if_neg (by omega), if_neg (by omega),
      if_neg (by omega), if_neg (by omega), if_neg (by omega),
      if_pos (by omega)]
    have e : 6 * (P.nN * P.nZ) + q - 6 * (P.nN * P.nZ) = q := by omega
    rw [e]

/-- C5: a checkpoint written by `save` consists of exactly `7*N*Z`
doubles in the order `T`, `ω`, `ψ`, `dT/dt[current]`, `dT/dt[other]`,
`dω/dt[current]`, `dω/dt[other]` (every offset past `saveBlobLen` reads
0 and each section holds the corresponding array), and `load` reads the
same layout, so saving and then reloading into a simulator with the same
grid and the same `current` restores `T`, `ω`, `ψ` and both tendency
slots identically. -/
theorem C5_checkpoint_roundtrip (P : Params) (s s2 : SimState) (n k sl : ℕ)
    (hn : n < P.nN) (hk : k < P.nZ) (hsl : sl < 2) (hc : s.current < 2)
    (hcur : s2.current = s.current) :
    (∀ i, saveBlobLen P ≤ i → saveBlob P s i = 0)
    ∧ saveBlob P s (n * P.nZ + k) = s.tmp n k
    ∧ saveBlob P s (P.nN * P.nZ + (n * P.nZ + k)) = s.omg n k
    ∧ saveBlob P s (2 * (P.nN * P.nZ) + (n * P.nZ + k)) = s.psi n k
    ∧ saveBlob P s (3 * (P.nN * P.nZ) + (n * P.nZ + k))
        = s.dTmpdt s.current n k
    ∧ saveBlob P s (4 * (P.nN * P.nZ) + (n * P.nZ + k))
        = s.dTmpdt ((s.current + 1) % 2) n k
    ∧ saveBlob P s (5 * (P.nN * P.nZ) + (n * P.nZ + k))
        = s.dOmgdt s.current n k
    ∧ saveBlob P s (6 * (P.nN * P.nZ) + (n * P.nZ + k))
        = s.dOmgdt ((s.current + 1) % 2) n k
    ∧ (load P (saveBlob P s) s2).tmp n k = s.tmp n k
    ∧ (load P (saveBlob P s) s2).omg n k = s.omg n k
    ∧ (load P (saveBlob P s) s2).psi n k = s.psi n k
    ∧ (load P (saveBlob P s) s2).dTmpdt sl n k = s.dTmpdt sl n k
    ∧ (load P (saveBlob P s) s2).dOmgdt sl n k = s.dOmgdt sl n k := by
  have hq : n * P.nZ + k < P.nN * P.nZ := by
    calc n * P.nZ + k < n * P.nZ + P.nZ := by omega
      _ = (n + 1) * P.nZ := by ring
      _ ≤ P.nN * P.nZ := Nat.mul_le_mul_right P.nZ hn
  have hdiv := flatIdx_div P.nZ n k hk
  have hmod := flatIdx_mod P.nZ n k hk
  obtain ⟨e1, e2, e3, e4, e5, e6, e7⟩ := saveBlob_sections P s (n * P.nZ + k) hq
  rw [hdiv, hmod] at e1 e2 e3 e4 e5 e6 e7
  refine ⟨?_, e1, e2, e3, e4, e5, e6, e7, ?_, ?_, ?_, ?_, ?_⟩
  · intro i hi
    unfold saveBlobLen at hi
    unfold saveBlob
    rw [if_neg (by omega), if_neg (by omega), if_neg (by omega),
      if_neg (by omega), if_neg (by omega), if_neg (by omega),
      if_neg (by omega)]
  · show (if _ then _ else _) = _
    rw [if_pos ⟨hn, hk⟩]
    exact e1
  · show (if _ then _ else _) = _
    rw [if_pos ⟨hn, hk⟩]
    exact e2
  · show (if _ then _ else _) = _
    rw [if_pos ⟨hn, hk⟩]
    exact e3
  · show (if _ then _ else _) = _
    rw [if_pos ⟨hn, hk⟩]
    by_cases hs : sl = s2.current
    · rw [if_pos hs, e4, hs, hcur]
    · have hs2 : sl = (s2.current + 1) % 2 := by omega
      rw [if_neg hs, if_pos hs2, e5, hs2, hcur]
  · show (if _ then _ else _) = _
    rw [if_pos ⟨hn, hk⟩]
    by_cases hs : sl = s2.current
    · rw [if_pos hs, e6, hs, hcur]
    · have hs2 : sl = (s2.current + 1) % 2 := by omega
      rw [if_neg hs, if_pos hs2, e7, hs2, hcur]

/-- Witness for C5 at `n = 1`, `k = 2`, slot `sl = 1`, saving and
reloading the concrete state `sw` into itself. -/
theorem C5_checkpoint_roundtrip_witness :
    (1 < Pw.nN ∧ 2 < Pw.nZ ∧ 1 < 2 ∧ sw.current < 2 ∧ sw.current = sw.current)
    ∧ ((∀ i, saveBlobLen Pw ≤ i → saveBlob Pw sw i = 0)
      ∧ saveBlob Pw sw (1 * Pw.nZ + 2) = sw.tmp 1 2
      ∧ saveBlob Pw sw (Pw.nN * Pw.nZ + (1 * Pw.nZ + 2)) = sw.omg 1 2
      ∧ saveBlob Pw sw (2 * (Pw.nN * Pw.nZ) + (1 * Pw.nZ + 2)) = sw.psi 1 2
      ∧ saveBlob Pw sw (3 * (Pw.nN * Pw.nZ) + (1 * Pw.nZ + 2))
          = sw.dTmpdt sw.current 1 2
      ∧ saveBlob Pw sw (4 * (Pw.nN * Pw.nZ) + (1 * Pw.nZ + 2))
          = sw.dTmpdt ((sw.current + 1) % 2) 1 2
      ∧ saveBlob Pw sw (5 * (Pw.nN * Pw.nZ) + (1 * Pw.nZ + 2))
          = sw.dOmgdt sw.current 1 2
      ∧ saveBlob Pw sw (6 * (Pw.nN * Pw.nZ) + (1 * Pw.nZ + 2))
          = sw.dOmgdt ((sw.current + 1) % 2) 1 2
      ∧ (load Pw (saveBlob Pw sw) sw).tmp 1 2 = sw.tmp 1 2
      ∧ (load Pw (saveBlob Pw sw) sw).omg 1 2 = sw.omg 1 2
      ∧ (load Pw (saveBlob Pw sw) sw).psi 1 2 = sw.psi 1 2
      ∧ (load Pw (saveBlob Pw sw) sw).dTmpdt 1 1 2 = sw.dTmpdt 1 1 2
      ∧ (load Pw (saveBlob Pw sw) sw).dOmgdt 1 1 2 = sw.dOmgdt 1 1 2) :=
  ⟨⟨by decide, by decide, by decide, by decide, rfl⟩,
    C5_checkpoint_roundtrip Pw sw sw 1 2 1 (by decide) (by decide)
      (by decide) (by decide) rfl⟩

/-- C6: the linear driver checks convergence on iterations with
`steps % 500 = 0`; when the change since the previous check of every
tracked growth-rate estimate (temperature, vorticity, streamfunction in
the non-DDC build) is below the tolerance `10⁻¹⁰` in absolute value it
returns the temperature growth-rate estimate; on an off-cadence iteration
it just steps; and once `t ≥ totalTime` it returns 0, so non-convergence
is reported by the value 0 and not an error. -/
theorem C6_linear_convergence_return (P : Params) (logF : ℚ → ℚ)
    (nCrit fuel : ℕ) (st : RLState) :
    tolerance = 1 / 10 ^ 10
    ∧ (P.totalTime ≤ st.sim.t → runLinearLoop P logF nCrit (fuel + 1) st = 0)
    ∧ (st.sim.t < P.totalTime → st.steps % 500 = 0 →
        |logTmpEstimate logF nCrit st - st.logTmpPrev| < tolerance →
        |logOmgEstimate logF nCrit st - st.logOmgPrev| < tolerance →
        |logPsiEstimate logF nCrit st - st.logPsiPrev| < tolerance →
        runLinearLoop P logF nCrit (fuel + 1) st
          = logTmpEstimate logF nCrit st)
    ∧ (st.sim.t < P.totalTime → st.steps % 500 ≠ 0 →
        runLinearLoop P logF nCrit (fuel + 1) st
          = runLinearLoop P logF nCrit fuel
              { st with sim := linearStepSim P st.sim
                        steps := st.steps + 1 }) := by
  refine ⟨rfl, ?_, ?_, ?_⟩
  · intro h
    show (if _ then _ else _) = _
    rw [if_neg (not_lt.mpr h)]
  · intro h1 h2 h3 h4 h5
    show (if _ then _ else _) = _
    rw [if_pos h1, if_pos h2, if_pos ⟨h3, h4, h5⟩]
  · intro h1 h2
    show (if _ then _ else _) = _
    rw [if_pos h1, if_neg h2]

/-- Witness for C6: on the concrete driver state `RLw` with the constant
zero stand-in for `std::log`, the first check converges immediately and
the loop returns the temperature growth-rate estimate. -/
theorem C6_linear_convergence_return_witness :
    (RLw.sim.t < Pw.totalTime ∧ RLw.steps % 500 = 0
      ∧ |logTmpEstimate (fun _ => 0) 0 RLw - RLw.logTmpPrev| < tolerance
      ∧ |logOmgEstimate (fun _ => 0) 0 RLw - RLw.logOmgPrev| < tolerance
      ∧ |logPsiEstimate (fun _ => 0) 0 RLw - RLw.logPsiPrev| < tolerance)
    ∧ runLinearLoop Pw (fun _ => 0) 0 (3 + 1) RLw
        = logTmpEstimate (fun _ => 0) 0 RLw := by
  have h1 : RLw.sim.t < Pw.totalTime := by norm_num [RLw, sw, Pw]
  have h2 : RLw.steps % 500 = 0 := rfl
  have h3 : |logTmpEstimate (fun _ => 0) 0 RLw - RLw.logTmpPrev| < tolerance := by
    norm_num [logTmpEstimate, RLw, tolerance]
  have h4 : |logOmgEstimate (fun _ => 0) 0 RLw - RLw.logOmgPrev| < tolerance := by
    norm_num [logOmgEstimate, RLw, tolerance]
  have h5 : |logPsiEstimate (fun _ => 0) 0 RLw - RLw.logPsiPrev| < tolerance := by
    norm_num [logPsiEstimate, RLw, tolerance]
  exact ⟨⟨h1, h2, h3, h4, h5⟩,
    (C6_linear_convergence_return Pw (fun _ => 0) 0 3 RLw).2.2.1 h1 h2 h3 h4 h5⟩

/-- C7 counterexample: the claim says a failure to open a kinetic-energy
stream file is fatal, but `Sim::saveKineticEnergy` never tests `is_open`
and returns normally when the open fails — for both the total-energy file
and the per-mode files. -/
theorem C7_ke_open_failure_not_fatal :
    saveKineticEnergyOutcome false ≠ IOOutcome.fatal
    ∧ saveKineticEnergyModeOutcome false ≠ IOOutcome.fatal := by
  constructor <;> intro h <;> exact IOOutcome.noConfusion h

/-- C7 (amended): a failure to open a checkpoint file in `save` or `load`
is fatal (diagnostic then `exit(-1)`), while a failure to open a
kinetic-energy stream file is never detected: `saveKineticEnergy`
proceeds normally. -/
theorem C7_io_failure_behaviour :
    saveOutcome false = IOOutcome.fatal
    ∧ loadOutcome false = IOOutcome.fatal
    ∧ saveOutcome true = IOOutcome.ok
    ∧ loadOutcome true = IOOutcome.ok
    ∧ saveKineticEnergyOutcome false = IOOutcome.ok
    ∧ saveKineticEnergyModeOutcome false = IOOutcome.ok :=
  ⟨rfl, rfl, rfl, rfl, rfl, rfl⟩

/-- C8: the snapshot-store loop of `Sim::runLinear` is hard-coded to
`n ∈ [1, 11)`, so on a check it does NOT update the previous-probe
snapshots for mode 0 or for modes `≥ 11` even though the probe value
differs, while modes 1..10 are updated — contradicting the claim that the
snapshots are updated for every tracked mode `n_crit ∈ [0, N)`. -/
theorem C8_snapshot_not_updated_outside_modes_1_10 :
    snapshotUpdate (fun _ => 7) (fun _ => 5) 0 = 5
    ∧ snapshotUpdate (fun _ => 7) (fun _ => 5) 11 = 5
    ∧ snapshotUpdate (fun _ => 7) (fun _ => 5) 1 = 7
    ∧ snapshotUpdate (fun _ => 7) (fun _ => 5) 10 = 7 := by
  refine ⟨?_, ?_, ?_, ?_⟩ <;> norm_num [snapshotUpdate]

/-- C9: at the valid minimum grid `Z = 3` (claim: no out-of-range
indices) with `N = 4`, the linear driver's probe read `tmp[32+nCrit*nZ]`
falls outside the `nN*nZ`-element field array already at `nCrit = 0`, the
snapshot-store loop writes `tmpPrev[10]` although the snapshot arrays
have only `nN = 4` entries, and the benchmark probe `tmp[n*nZ+32]` at
`n = 20` is also out of range. -/
theorem C9_probe_and_snapshot_out_of_bounds :
    ¬ (probeFlatIndex 3 0 < fieldArrayLen 4 3)
    ∧ (10 ∈ snapshotStoreIndices ∧ ¬ (10 < snapshotArrayLen 4))
    ∧ ¬ (benchmarkFlatIndex 3 20 < fieldArrayLen 4 3) := by
  refine ⟨?_, ⟨?_, ?_⟩, ?_⟩ <;> decide
